import Mathlib

/-!
# Verification of the family file-sharing app's HTTP endpoints and upload widget

Shallow embedding of the three API routes (upload, list, delete) and the
upload widget's per-file state machine, translated from the TypeScript
sources.  Filesystem effects are made explicit: the storage directory is a
value threaded through each handler, `readdir` failure is `Option.none`,
per-entry `stat` failure is an `Option.none` stat field, and `unlink`
failure is an oracle `String → Bool`.  The generated UUID and the current
timestamp are oracle inputs, since they come from outside the handlers.
-/

namespace FamilyApp

/-! ## String helpers shared by the routes

JS `fileName.split('.')` with a single-character separator is a character
split; we embed it on `List Char` (the `.data` of a `String`). -/

/-- Character-level embedding of JS `s.split('.')`: splits on every `'.'`,
keeping empty segments, and yields `[s]` when no dot occurs (JS `split`
always returns a non-empty array). -/
def splitOnDot : List Char → List (List Char)
  | [] => [[]]
  | c :: cs =>
    match splitOnDot cs with
    | [] => [[]]
    | p :: ps => if c = '.' then [] :: p :: ps else (c :: p) :: ps

/-- Embedding of JS `parts.join('.')`: interleaves `'.'` between segments. -/
def intercalateDot : List (List Char) → List Char
  | [] => []
  | [p] => p
  | p :: q :: ps => p ++ '.' :: intercalateDot (q :: ps)

theorem data_asString (l : List Char) : l.asString.data = l := rfl

theorem splitOnDot_ne_nil (s : List Char) : splitOnDot s ≠ [] := by
  cases s with
  | nil => simp [splitOnDot]
  | cons c cs =>
    simp only [splitOnDot]
    cases h : splitOnDot cs with
    | nil => simp
    | cons p ps =>
      by_cases hc : c = '.' <;> simp [hc]

theorem intercalateDot_splitOnDot (s : List Char) :
    intercalateDot (splitOnDot s) = s := by
  induction s with
  | nil => rfl
  | cons c cs ih =>
    simp only [splitOnDot]
    cases h : splitOnDot cs with
    | nil => exact absurd h (splitOnDot_ne_nil cs)
    | cons p ps =>
      rw [h] at ih
      by_cases hc : c = '.'
      · subst hc
        simpa [intercalateDot] using ih
      · simp only [if_neg hc]
        cases ps with
        | nil => simpa [intercalateDot] using ih
        | cons q ps' => simpa [intercalateDot] using ih

theorem splitOnDot_of_not_mem {s : List Char} (h : '.' ∉ s) :
    splitOnDot s = [s] := by
  induction s with
  | nil => rfl
  | cons c cs ih =>
    have hc : c ≠ '.' := fun hc => h (hc ▸ List.mem_cons_self c cs)
    have hcs : '.' ∉ cs := fun hm => h (List.mem_cons_of_mem _ hm)
    simp [splitOnDot, ih hcs, if_neg hc]

theorem two_le_length_splitOnDot {s : List Char} (h : '.' ∈ s) :
    2 ≤ (splitOnDot s).length := by
  induction s with
  | nil => cases h
  | cons c cs ih =>
    simp only [splitOnDot]
    cases hcs : splitOnDot cs with
    | nil => exact absurd hcs (splitOnDot_ne_nil cs)
    | cons p ps =>
      by_cases hc : c = '.'
      · simp [hc]
      · have hmem : '.' ∈ cs := by
          rcases List.mem_cons.mp h with h1 | h1
          · exact absurd h1.symm hc
          · exact h1
        have := ih hmem
        rw [hcs] at this
        simp only [if_neg hc, List.length_cons] at *
        omega

theorem intercalateDot_dropLast_getLast {l : List (List Char)}
    (h : 2 ≤ l.length) :
    intercalateDot l = intercalateDot l.dropLast ++ '.' :: l.getLastD [] := by
  induction l with
  | nil => simp at h
  | cons p rest ih =>
    cases rest with
    | nil => simp at h
    | cons q rest' =>
      cases rest' with
      | nil => simp [intercalateDot]
      | cons r rest'' =>
        have h2 : 2 ≤ (q :: r :: rest'').length := by simp
        have := ih h2
        simp only [intercalateDot, List.dropLast_cons_of_ne_nil, List.getLastD_cons] at *
        simp [this]

/-- Embedding of JS `file.startsWith(fileId)`: prefix test on the character
sequences. -/
def jsStartsWith (s pre : String) : Bool := pre.data.isPrefixOf s.data

/-- Embedding of JS `extension.toLowerCase()` (same definition Lean's
`String.toLower` uses, stated on the character list so it evaluates). -/
def jsToLower (s : String) : String := (s.data.map Char.toLower).asString

/-- `fileName.split('.')` as performed by the routes. -/
def splitParts (fileName : String) : List (List Char) := splitOnDot fileName.data

/-- `fileName.split('.').pop()`: the final `'.'`-separated segment (JS `pop`
returns the last element; the split array is never empty). -/
def extOf (fileName : String) : String := ((splitParts fileName).getLastD []).asString

/-- `parts.join('.')` after the `pop()`: everything before the final
segment. -/
def idOf (fileName : String) : String :=
  (intercalateDot (splitParts fileName).dropLast).asString

/-! ## Upload route (`POST /api/upload`, src/unnamed/part_002)

The multipart `file` field is `Option FileData` (`none` embeds a missing
field, which JS sees as `null`).  The generated UUID and the ISO timestamp
are oracle inputs.  The storage directory is the list of stored filenames;
`mkdir` is idempotent and `writeFile` appends the new name. -/

structure FileData where
  name : String
  size : Nat
  type : String
  deriving Repr, DecidableEq

/-- `allowedTypes` from the upload route. -/
def allowedTypes : List String :=
  ["image/jpeg", "image/png", "image/gif", "image/webp",
   "application/pdf",
   "text/plain", "text/markdown",
   "application/msword",
   "application/vnd.openxmlformats-officedocument.wordprocessingml.document"]

/-- Upload responses: `ok` carries exactly the seven fields of the route's
success JSON (`id`, `filename`, `originalName`, `url`, `size`, `type`,
`uploadedAt`); `clientError` is a 400 JSON error; `serverError` is the
outer catch's 500. -/
inductive UploadResult where
  | ok (id filename originalName url : String) (size : Nat)
       (type uploadedAt : String)
  | clientError (error : String)
  | serverError (error : String)
  deriving Repr, DecidableEq

/-- The `POST` handler.  Returns the HTTP result and the storage directory
after the request. -/
def uploadPOST (file : Option FileData) (fileId now : String)
    (dir : List String) : UploadResult × List String :=
  match file with
  | none => (.clientError "No file received.", dir)
  | some f =>
    if f.size > 10 * 1024 * 1024 then
      (.clientError "File too large. Max size is 10MB.", dir)
    else if allowedTypes.contains f.type = false then
      (.clientError "File type not allowed.", dir)
    else
      let fileName := fileId ++ "." ++ extOf f.name
      (.ok fileId fileName f.name ("/uploads/" ++ fileName) f.size f.type now,
       dir ++ [fileName])

/-! ## Delete route (`DELETE /api/upload/[id]`, src/src/app/api/upload/[id]/route.ts)

`readdir` failure is `dir = none`; `unlink` success is the oracle
`unlinkOk`.  Both `readdir` and `unlink` sit inside the route's inner
`try`, whose `catch` returns the 404 `"File not found or already deleted"`;
the outer `catch` (500 `"Delete failed."`) only guards code outside that
block, so no filesystem failure reaches it. -/

inductive DeleteResult where
  | success (message : String)
  | notFound (error : String)
  | serverError (error : String)
  deriving Repr, DecidableEq

/-- The `DELETE` handler.  Returns the HTTP result and the directory after
the request (`none` meaning it was unreadable to begin with). -/
def deleteDELETE (fileId : String) (dir : Option (List String))
    (unlinkOk : String → Bool) : DeleteResult × Option (List String) :=
  match dir with
  | none => (.notFound "File not found or already deleted", none)
  | some files =>
    match files.find? (fun file => jsStartsWith file fileId) with
    | some fileToDelete =>
      if unlinkOk fileToDelete then
        (.success "File deleted successfully", some (files.erase fileToDelete))
      else
        (.notFound "File not found or already deleted", some files)
    | none => (.notFound "File not found", some files)

/-! ## List route (`GET /api/files`, src/unnamed/part_003) -/

/-- `getFileType` from the list route: extension → MIME type. -/
def getFileType (extension : String) : String :=
  let ext := jsToLower extension
  if (["jpg", "jpeg", "png", "gif", "webp"] : List String).contains ext then
    "image/" ++ (if ext = "jpg" then "jpeg" else ext)
  else if ext = "pdf" then
    "application/pdf"
  else if (["txt", "md"] : List String).contains ext then
    "text/plain"
  else if ext = "doc" then
    "application/msword"
  else if ext = "docx" then
    "application/vnd.openxmlformats-officedocument.wordprocessingml.document"
  else
    "application/octet-stream"

/-- A directory entry as the scan sees it: its name and the result of
`stat` (`none` embeds a throwing `stat`, e.g. the file was removed
mid-scan). -/
structure DirEntry where
  name : String
  stat : Option (Nat × Int)
  deriving Repr, DecidableEq

/-- The File Descriptor JSON object built for one listed file. -/
structure FileDescriptor where
  id : String
  fileName : String
  originalName : String
  size : Nat
  uploadedAt : Int
  url : String
  type : String
  deriving Repr, DecidableEq

/-- The per-entry body of the scan: `none` when `stat` throws (the entry is
later filtered out). -/
def descriptorOf (e : DirEntry) : Option FileDescriptor :=
  match e.stat with
  | none => none
  | some (sz, birthtime) =>
    some { id := idOf e.name
           fileName := e.name
           originalName := e.name
           size := sz
           uploadedAt := birthtime
           url := "/uploads/" ++ e.name
           type := getFileType (extOf e.name) }

/-- The route's sort comparator `(a, b) => b.uploadedAt - a.uploadedAt`:
`a` may precede `b` exactly when `b.uploadedAt ≤ a.uploadedAt`. -/
def newerFirst (a b : FileDescriptor) : Prop := b.uploadedAt ≤ a.uploadedAt

instance : DecidableRel newerFirst := fun a b => Int.decLe b.uploadedAt a.uploadedAt

instance : IsTotal FileDescriptor newerFirst :=
  ⟨fun a b => (Int.le_total a.uploadedAt b.uploadedAt).symm⟩

instance : IsTrans FileDescriptor newerFirst :=
  ⟨fun _ _ _ h1 h2 => Int.le_trans h2 h1⟩

inductive ListResult where
  | ok (files : List FileDescriptor)
  | serverError (error : String)
  deriving Repr, DecidableEq

/-- The `GET` handler: `dir = none` embeds a `readdir` that throws
(directory missing or unreadable), answered by the inner catch with
`{files: []}`.  JS `Array.prototype.sort` is modelled as a sort by the
route's comparator (ties land in unspecified order, which the sort choice
does not constrain further). -/
def filesGET (dir : Option (List DirEntry)) : ListResult :=
  match dir with
  | none => .ok []
  | some entries =>
    .ok (List.insertionSort newerFirst (entries.filterMap descriptorOf))

/-- Projection used to state properties of a `ListResult`. -/
def ListResult.files : ListResult → List FileDescriptor
  | .ok fs => fs
  | .serverError _ => []

/-! ## Upload widget (src/unnamed/part_000, `onDrop` and its callbacks)

Per-file state machine of the status-tracking widget variant.  The
`uploadStatuses` object keyed by file name is a partial map
`String → Option UploadStatus`; the `setTimeout` that clears a status two
seconds after success is made explicit as a `pendingClears` set of
scheduled timers, consumed by `fireClearTimeout`. -/

inductive UploadPhase where
  | idle
  | uploading
  | success
  | error
  deriving Repr, DecidableEq

structure UploadStatus where
  status : UploadPhase
  progress : Nat
  message : Option String
  deriving Repr, DecidableEq

structure UploadedFile where
  id : String
  fileName : String
  originalName : Option String
  size : Nat
  type : String
  url : String
  uploadedAt : String
  deriving Repr, DecidableEq

structure WidgetState where
  uploadedFiles : List UploadedFile
  uploadStatuses : String → Option UploadStatus
  pendingClears : List String

/-- `response.ok` branch of `onDrop`: mark the status success, cons the new
descriptor onto the front of `uploadedFiles`, and schedule the 2-second
status-clearing timeout. -/
def onUploadSuccess (fileName : String) (newFile : UploadedFile)
    (s : WidgetState) : WidgetState :=
  { uploadedFiles := newFile :: s.uploadedFiles
    uploadStatuses := fun n =>
      if n = fileName then
        some { status := .success, progress := 100, message := some "Upload complete!" }
      else s.uploadStatuses n
    pendingClears := fileName :: s.pendingClears }

/-- The scheduled timeout firing: `delete newStatuses[file.name]`. -/
def fireClearTimeout (fileName : String) (s : WidgetState) : WidgetState :=
  { uploadedFiles := s.uploadedFiles
    uploadStatuses := fun n => if n = fileName then none else s.uploadStatuses n
    pendingClears := s.pendingClears.erase fileName }

/-- Failure branches of `onDrop` (non-2xx response or thrown fetch): mark
the status error with the server-provided or generic message.  No timeout
is scheduled. -/
def onUploadError (fileName message : String) (s : WidgetState) : WidgetState :=
  { uploadedFiles := s.uploadedFiles
    uploadStatuses := fun n =>
      if n = fileName then
        some { status := .error, progress := 0, message := some message }
      else s.uploadStatuses n
    pendingClears := s.pendingClears }

/-! ## Claims -/

/-- C1: `POST /api/upload` rejects a missing `file` field with the 400
"No file received." error, an over-10-MiB file with the 400 "File too
large." error, and a file whose declared MIME type is outside
`allowedTypes` with the 400 "File type not allowed." error; in each
failure the storage directory is returned unchanged (no file written). -/
theorem upload_validation_rejects (f : FileData) (fileId now : String)
    (dir : List String) :
    uploadPOST none fileId now dir = (.clientError "No file received.", dir) ∧
    (f.size > 10 * 1024 * 1024 →
      uploadPOST (some f) fileId now dir =
        (.clientError "File too large. Max size is 10MB.", dir)) ∧
    (f.size ≤ 10 * 1024 * 1024 → allowedTypes.contains f.type = false →
      uploadPOST (some f) fileId now dir =
        (.clientError "File type not allowed.", dir)) := by
  refine ⟨rfl, fun h => ?_, fun h1 h2 => ?_⟩
  · simp [uploadPOST, h]
  · have h2' : f.type ∉ allowedTypes := by
      simpa [List.contains, List.elem_eq_mem] using h2
    simp [uploadPOST, h2', Nat.not_lt.mpr h1]

theorem upload_validation_rejects_witness :
    uploadPOST (some ⟨"a.zip", 11 * 1024 * 1024, "application/zip"⟩) "id" "t" [] =
      (.clientError "File too large. Max size is 10MB.", []) ∧
    uploadPOST (some ⟨"a.zip", 100, "application/zip"⟩) "id" "t" [] =
      (.clientError "File type not allowed.", []) ∧
    uploadPOST none "id" "t" [] = (.clientError "No file received.", []) :=
  ⟨(upload_validation_rejects ⟨"a.zip", 11 * 1024 * 1024, "application/zip"⟩
      "id" "t" []).2.1 (by decide),
   (upload_validation_rejects ⟨"a.zip", 100, "application/zip"⟩
      "id" "t" []).2.2 (by decide) (by decide),
   (upload_validation_rejects ⟨"a", 0, "x"⟩ "id" "t" []).1⟩

/-- C2: `GET /api/files` on a missing/unreadable directory answers
`{files: []}` as a success, identically to an existing empty directory:
the two situations are indistinguishable to the caller. -/
theorem list_missing_dir_is_empty_success :
    filesGET none = .ok [] ∧ filesGET (some []) = .ok [] ∧
    filesGET none = filesGET (some []) :=
  ⟨rfl, rfl, rfl⟩

/-- C3: `DELETE /api/upload/[id]` removes the first directory entry whose
name starts with `fileId` and reports success (when the `unlink` goes
through, as it does for an existing file); with no matching entry it
answers 404 "File not found", and with an unreadable directory it answers
the inner catch's 404. -/
theorem delete_prefix_scan (fileId : String) (files : List String)
    (unlinkOk : String → Bool) (f : String) :
    (files.find? (fun file => jsStartsWith file fileId) = some f →
      unlinkOk f = true →
      deleteDELETE fileId (some files) unlinkOk =
        (.success "File deleted successfully", some (files.erase f))) ∧
    (files.find? (fun file => jsStartsWith file fileId) = none →
      deleteDELETE fileId (some files) unlinkOk =
        (.notFound "File not found", some files)) ∧
    deleteDELETE fileId none unlinkOk =
      (.notFound "File not found or already deleted", none) := by
  refine ⟨fun hf hu => ?_, fun hf => ?_, rfl⟩
  · simp [deleteDELETE, hf, hu]
  · simp [deleteDELETE, hf]

theorem delete_prefix_scan_witness :
    deleteDELETE "a" (some ["aa.txt", "ab.txt"]) (fun _ => true) =
      (.success "File deleted successfully", some ["ab.txt"]) ∧
    deleteDELETE "z" (some ["aa.txt"]) (fun _ => true) =
      (.notFound "File not found", some ["aa.txt"]) ∧
    deleteDELETE "a" none (fun _ => true) =
      (.notFound "File not found or already deleted", none) :=
  ⟨((delete_prefix_scan "a" ["aa.txt", "ab.txt"] (fun _ => true) "aa.txt").1
      (by decide) rfl).trans (by decide),
   (delete_prefix_scan "z" ["aa.txt"] (fun _ => true) "x").2.1 (by decide),
   (delete_prefix_scan "a" [] (fun _ => true) "x").2.2⟩

/-- C4: the file list answered by `GET /api/files` is sorted by creation
timestamp descending (newest first): every entry's `uploadedAt` is ≥ that
of every later entry, so whenever two timestamps differ the later one
comes first; equal timestamps are unconstrained. -/
theorem list_sorted_newest_first (dir : Option (List DirEntry)) :
    (filesGET dir).files.Sorted newerFirst := by
  cases dir with
  | none => simp [filesGET, ListResult.files]
  | some entries =>
    simpa [filesGET, ListResult.files] using
      List.sorted_insertionSort newerFirst (entries.filterMap descriptorOf)

/-- C5: a validated upload (file present, size ≤ 10 MiB, allowed type)
stores the file as `{fileId}.{extension}` — extension being the final
`'.'`-separated segment of the original name — appends it to the storage
directory, and answers success JSON carrying exactly the identifier,
stored filename, original name, `/uploads/{storedFilename}` URL, size,
declared type, and the generation timestamp.  (The fresh UUID and the
timestamp are oracle inputs `fileId`/`now`.) -/
theorem upload_success_response (f : FileData) (fileId now : String)
    (dir : List String)
    (hsize : f.size ≤ 10 * 1024 * 1024)
    (htype : allowedTypes.contains f.type = true) :
    uploadPOST (some f) fileId now dir =
      (.ok fileId (fileId ++ "." ++ extOf f.name) f.name
         ("/uploads/" ++ (fileId ++ "." ++ extOf f.name)) f.size f.type now,
       dir ++ [fileId ++ "." ++ extOf f.name]) := by
  have htype' : f.type ∈ allowedTypes := by
    simpa [List.contains, List.elem_eq_mem] using htype
  simp [uploadPOST, htype', Nat.not_lt.mpr hsize]

theorem upload_success_response_witness :
    uploadPOST (some ⟨"photo.jpg", 5, "image/jpeg"⟩) "id1" "2024" [] =
      (.ok "id1" "id1.jpg" "photo.jpg" "/uploads/id1.jpg" 5 "image/jpeg" "2024",
       ["id1.jpg"]) :=
  (upload_success_response ⟨"photo.jpg", 5, "image/jpeg"⟩ "id1" "2024" []
    (by decide) (by decide)).trans (by decide)

/-- C6: `getFileType` maps extensions case-insensitively through the fixed
table jpg/jpeg→image/jpeg, png→image/png, gif→image/gif, webp→image/webp,
pdf→application/pdf, txt/md→text/plain, doc→application/msword,
docx→application/vnd.openxmlformats-officedocument.wordprocessingml.document,
defaulting to application/octet-stream; the List Endpoint's descriptors get
their `type` from it applied to the filename's final segment. -/
theorem mime_type_lookup_table :
    getFileType "jpg" = "image/jpeg" ∧ getFileType "jpeg" = "image/jpeg" ∧
    getFileType "png" = "image/png" ∧ getFileType "gif" = "image/gif" ∧
    getFileType "webp" = "image/webp" ∧
    getFileType "pdf" = "application/pdf" ∧
    getFileType "txt" = "text/plain" ∧ getFileType "md" = "text/plain" ∧
    getFileType "doc" = "application/msword" ∧
    getFileType "docx" =
      "application/vnd.openxmlformats-officedocument.wordprocessingml.document" ∧
    (∀ s : String,
      jsToLower s ∉ (["jpg", "jpeg", "png", "gif", "webp", "pdf", "txt",
        "md", "doc", "docx"] : List String) →
      getFileType s = "application/octet-stream") ∧
    (∀ s t : String, jsToLower s = jsToLower t →
      getFileType s = getFileType t) ∧
    (∀ e : DirEntry, ∀ d : FileDescriptor, descriptorOf e = some d →
      d.type = getFileType (extOf e.name)) := by
  refine ⟨by decide, by decide, by decide, by decide, by decide, by decide,
    by decide, by decide, by decide, by decide, fun s h => ?_,
    fun s t h => ?_, fun e d hd => ?_⟩
  · simp only [List.mem_cons, List.not_mem_nil, or_false, not_or] at h
    obtain ⟨h1, h2, h3, h4, h5, h6, h7, h8, h9, h10⟩ := h
    simp [getFileType, List.contains, List.elem_eq_mem,
      h1, h2, h3, h4, h5, h6, h7, h8, h9, h10]
  · simp only [getFileType, h]
  · unfold descriptorOf at hd
    cases hstat : e.stat with
    | none => rw [hstat] at hd; cases hd
    | some p => rw [hstat] at hd; cases hd; rfl

theorem mime_type_lookup_table_witness :
    getFileType "zip" = "application/octet-stream" ∧
    getFileType "JPG" = getFileType "jpg" ∧
    (descriptorOf ⟨"x.pdf", some (3, 7)⟩).map FileDescriptor.type =
      some (getFileType (extOf "x.pdf")) := by
  obtain ⟨-, -, -, -, -, -, -, -, -, -, hfall, hci, hdesc⟩ := mime_type_lookup_table
  refine ⟨hfall "zip" (by decide), hci "JPG" "jpg" (by decide), ?_⟩
  cases hd : descriptorOf ⟨"x.pdf", some (3, 7)⟩ with
  | none => exact absurd hd (by decide)
  | some d => rw [Option.map_some', hdesc ⟨"x.pdf", some (3, 7)⟩ d hd]

/-- C7 counterexample (claim as stated is false): with a matching entry
whose `unlink` fails, the route answers the inner catch's 404
"File not found or already deleted", not a 500 "Delete failed." server
error — `unlink` sits inside the inner `try`, so its failure never reaches
the outer catch. -/
theorem delete_unlink_failure_counterexample :
    deleteDELETE "a" (some ["a.txt"]) (fun _ => false) =
      (.notFound "File not found or already deleted", some ["a.txt"]) ∧
    (deleteDELETE "a" (some ["a.txt"]) (fun _ => false)).1 ≠
      DeleteResult.serverError "Delete failed." :=
  ⟨by decide, by decide⟩

/-- C7 amended: when the matching entry's removal fails unexpectedly, the
route answers the 404 "File not found or already deleted" of the inner
catch (the same response as an unreadable directory), with no file
removed; the 500 "Delete failed." outer catch guards only code outside the
scan/removal block. -/
theorem delete_unlink_failure_returns_404 (fileId f : String)
    (files : List String) (unlinkOk : String → Bool)
    (hf : files.find? (fun file => jsStartsWith file fileId) = some f)
    (hu : unlinkOk f = false) :
    deleteDELETE fileId (some files) unlinkOk =
      (.notFound "File not found or already deleted", some files) := by
  simp [deleteDELETE, hf, hu]

theorem delete_unlink_failure_returns_404_witness :
    deleteDELETE "a" (some ["a.txt", "b.txt"]) (fun _ => false) =
      (.notFound "File not found or already deleted", some ["a.txt", "b.txt"]) :=
  delete_unlink_failure_returns_404 "a" "a.txt" ["a.txt", "b.txt"]
    (fun _ => false) (by decide) rfl

/-- C8: in the status-tracking upload widget, a successful upload conses
the new descriptor onto the head of the displayed list, sets the file's
status to success, and schedules the clearing timeout; when that timeout
fires the status entry is gone while the file stays at the head of the
list; a failed upload sets an error status with the message and schedules
no clearing timeout (the status is not auto-cleared), leaving the file
list untouched. -/
theorem widget_upload_state_machine (s : WidgetState) (fileName : String)
    (newFile : UploadedFile) (message : String) :
    ((onUploadSuccess fileName newFile s).uploadedFiles =
       newFile :: s.uploadedFiles) ∧
    ((onUploadSuccess fileName newFile s).uploadStatuses fileName =
       some { status := .success, progress := 100,
              message := some "Upload complete!" }) ∧
    (fileName ∈ (onUploadSuccess fileName newFile s).pendingClears) ∧
    ((fireClearTimeout fileName (onUploadSuccess fileName newFile s)).uploadStatuses
       fileName = none) ∧
    ((fireClearTimeout fileName (onUploadSuccess fileName newFile s)).uploadedFiles =
       newFile :: s.uploadedFiles) ∧
    ((onUploadError fileName message s).uploadStatuses fileName =
       some { status := .error, progress := 0, message := some message }) ∧
    ((onUploadError fileName message s).pendingClears = s.pendingClears) ∧
    ((onUploadError fileName message s).uploadedFiles = s.uploadedFiles) := by
  refine ⟨rfl, ?_, ?_, ?_, rfl, ?_, rfl, rfl⟩ <;>
    simp [onUploadSuccess, fireClearTimeout, onUploadError]

/-- C9: a `DELETE` whose identifier is the empty string matches the first
entry of any non-empty directory listing (every name starts with the empty
string), removes that file, and reports success. -/
theorem delete_empty_id_removes_first (f : String) (fs : List String)
    (unlinkOk : String → Bool) (hu : unlinkOk f = true) :
    deleteDELETE "" (some (f :: fs)) unlinkOk =
      (.success "File deleted successfully", some fs) := by
  have hpre : jsStartsWith f "" = true := by
    simp [jsStartsWith, List.isPrefixOf_iff_prefix]
  simp [deleteDELETE, List.find?, hpre, hu, List.erase_cons_head]

theorem delete_empty_id_removes_first_witness :
    deleteDELETE "" (some ["b.png", "a.txt"]) (fun _ => true) =
      (.success "File deleted successfully", some ["a.txt"]) :=
  delete_empty_id_removes_first "b.png" ["a.txt"] (fun _ => true) rfl

/-- C10: the list route's filename decomposition is lossless: when the
name contains a dot, `idOf` and `extOf` rebuild it exactly as
`id ++ "." ++ extension`; when it contains none, `idOf` is empty and
`extOf` is the whole name. -/
theorem filename_decomposition (fileName : String) :
    ('.' ∈ fileName.data →
      idOf fileName ++ "." ++ extOf fileName = fileName) ∧
    ('.' ∉ fileName.data →
      idOf fileName = "" ∧ extOf fileName = fileName) := by
  constructor
  · intro h
    have h2 := two_le_length_splitOnDot h
    have hsplit := intercalateDot_dropLast_getLast h2
    rw [intercalateDot_splitOnDot] at hsplit
    apply String.ext
    rw [String.data_append, String.data_append]
    show intercalateDot (splitOnDot fileName.data).dropLast ++ ['.'] ++
        (splitOnDot fileName.data).getLastD [] = fileName.data
    rw [List.append_assoc, List.singleton_append]
    exact hsplit.symm
  · intro h
    have hs : splitOnDot fileName.data = [fileName.data] :=
      splitOnDot_of_not_mem h
    refine ⟨?_, ?_⟩
    · apply String.ext
      simp [idOf, splitParts, hs, intercalateDot, data_asString]
    · apply String.ext
      simp [extOf, splitParts, hs, data_asString]

theorem filename_decomposition_witness :
    idOf "abc.txt" ++ "." ++ extOf "abc.txt" = "abc.txt" ∧
    (idOf "noext" = "" ∧ extOf "noext" = "noext") :=
  ⟨(filename_decomposition "abc.txt").1 (by decide),
   (filename_decomposition "noext").2 (by decide)⟩

end FamilyApp
